import Mathlib

/-!
Verification of the DocKubeADT manifest-to-ADT translator
(`dockubeadt/translator.py`), shallowly embedded in Lean 4.

YAML values are modelled by the inductive type `Val` (null, string,
sequence, mapping); Python dicts are association lists preserving
insertion order, as CPython dicts do.  Fallible Python code is modelled
with `Except PyErr`, whose constructors name the Python exception that
the corresponding operation raises.
-/

namespace DocKubeADT

/-- Python exceptions raised by the translator and by the container
operations it uses. -/
inductive PyErr where
  | valueError (msg : String)
  | keyError (k : String)
  | typeError
  | indexError
  | attributeError
deriving Repr, DecidableEq

/-- A parsed YAML value: null, string scalar, sequence, or mapping with
string keys (insertion-ordered, as in CPython). -/
inductive Val where
  | vnull
  | vstr (s : String)
  | vlist (xs : List Val)
  | vmap (entries : List (String × Val))
deriving Repr, Inhabited

mutual

/-- Structural equality test for `Val`. -/
def Val.decEq : (a b : Val) → Decidable (a = b)
  | .vnull, .vnull => .isTrue rfl
  | .vnull, .vstr _ => .isFalse (fun h => Val.noConfusion h)
  | .vnull, .vlist _ => .isFalse (fun h => Val.noConfusion h)
  | .vnull, .vmap _ => .isFalse (fun h => Val.noConfusion h)
  | .vstr _, .vnull => .isFalse (fun h => Val.noConfusion h)
  | .vstr a, .vstr b =>
      match String.decEq a b with
      | .isTrue h => .isTrue (by rw [h])
      | .isFalse h => .isFalse (fun hh => h (Val.vstr.inj hh))
  | .vstr _, .vlist _ => .isFalse (fun h => Val.noConfusion h)
  | .vstr _, .vmap _ => .isFalse (fun h => Val.noConfusion h)
  | .vlist _, .vnull => .isFalse (fun h => Val.noConfusion h)
  | .vlist _, .vstr _ => .isFalse (fun h => Val.noConfusion h)
  | .vlist xs, .vlist ys =>
      match Val.decEqList xs ys with
      | .isTrue h => .isTrue (by rw [h])
      | .isFalse h => .isFalse (fun hh => h (Val.vlist.inj hh))
  | .vlist _, .vmap _ => .isFalse (fun h => Val.noConfusion h)
  | .vmap _, .vnull => .isFalse (fun h => Val.noConfusion h)
  | .vmap _, .vstr _ => .isFalse (fun h => Val.noConfusion h)
  | .vmap _, .vlist _ => .isFalse (fun h => Val.noConfusion h)
  | .vmap a, .vmap b =>
      match Val.decEqMap a b with
      | .isTrue h => .isTrue (by rw [h])
      | .isFalse h => .isFalse (fun hh => h (Val.vmap.inj hh))

/-- Structural equality test for lists of `Val`. -/
def Val.decEqList : (a b : List Val) → Decidable (a = b)
  | [], [] => .isTrue rfl
  | [], _ :: _ => .isFalse (fun h => List.noConfusion h)
  | _ :: _, [] => .isFalse (fun h => List.noConfusion h)
  | x :: xs, y :: ys =>
      match Val.decEq x y with
      | .isTrue h1 =>
        (match Val.decEqList xs ys with
         | .isTrue h2 => .isTrue (by rw [h1, h2])
         | .isFalse h2 => .isFalse (fun hh => h2 (List.cons.inj hh).2))
      | .isFalse h1 => .isFalse (fun hh => h1 (List.cons.inj hh).1)

/-- Structural equality test for association lists of `Val`. -/
def Val.decEqMap : (a b : List (String × Val)) → Decidable (a = b)
  | [], [] => .isTrue rfl
  | [], _ :: _ => .isFalse (fun h => List.noConfusion h)
  | _ :: _, [] => .isFalse (fun h => List.noConfusion h)
  | (k, x) :: xs, (l, y) :: ys =>
      match String.decEq k l with
      | .isTrue hk =>
        (match Val.decEq x y with
         | .isTrue h1 =>
           (match Val.decEqMap xs ys with
            | .isTrue h2 => .isTrue (by rw [hk, h1, h2])
            | .isFalse h2 => .isFalse (fun hh => h2 (List.cons.inj hh).2))
         | .isFalse h1 =>
             .isFalse (fun hh => h1 (congrArg Prod.snd (List.cons.inj hh).1)))
      | .isFalse hk =>
          .isFalse (fun hh => hk (congrArg Prod.fst (List.cons.inj hh).1))

end

instance : DecidableEq Val := Val.decEq

/-- Decidable equality of `Except` results, for evaluating the
translator on concrete inputs. -/
def exceptDecEq {e a : Type} [DecidableEq e] [DecidableEq a] :
    (x y : Except e a) → Decidable (x = y)
  | .ok x, .ok y =>
      match decEq x y with
      | .isTrue h => .isTrue (by rw [h])
      | .isFalse h => .isFalse (fun hh => h (Except.ok.inj hh))
  | .ok _, .error _ => .isFalse (fun h => Except.noConfusion h)
  | .error _, .ok _ => .isFalse (fun h => Except.noConfusion h)
  | .error x, .error y =>
      match decEq x y with
      | .isTrue h => .isTrue (by rw [h])
      | .isFalse h => .isFalse (fun hh => h (Except.error.inj hh))

instance {e a : Type} [DecidableEq e] [DecidableEq a] : DecidableEq (Except e a) :=
  exceptDecEq

/-- ASCII lowering of one character (Python `str.lower` restricted to
ASCII, which covers every string the translator lowercases). -/
def lowerChar (c : Char) : Char :=
  if 65 ≤ c.toNat ∧ c.toNat ≤ 90 then Char.ofNat (c.toNat + 32) else c

/-- ASCII `s.lower()` over the character list of the string. -/
def strLower (s : String) : String := String.mk (s.data.map lowerChar)

/-- Does `pat` occur as a contiguous substring of `hay` (Python
`pat in hay` on strings)? -/
def containsSub (hay pat : List Char) : Bool :=
  match hay with
  | [] => pat.isEmpty
  | _ :: t => pat.isPrefixOf hay || containsSub t pat

/-- Split a character list at `/` (for `Path(...).name` and
`os.path.basename` over POSIX paths). -/
def splitSlash : List Char → List Char → List (List Char)
  | [], acc => [acc.reverse]
  | c :: rest, acc =>
      if c = '/' then acc.reverse :: splitSlash rest []
      else splitSlash rest (c :: acc)

/-- First-match lookup in an insertion-ordered mapping (Python `d[k]`
on a dict with unique keys). -/
def lookupMap : List (String × Val) → String → Option Val
  | [], _ => none
  | (k', v) :: rest, k => if k' = k then some v else lookupMap rest k

/-- Python `d[k] = v` on a dict: replace in place when the key exists,
otherwise append at the end (insertion order). -/
def setMap : List (String × Val) → String → Val → List (String × Val)
  | [], k, v => [(k, v)]
  | (k', v') :: rest, k, v =>
      if k' = k then (k', v) :: rest else (k', v') :: setMap rest k v

/-- Python truthiness of a YAML value (`None`, `""`, `[]`, `{}` are
falsy). -/
def Val.truthy : Val → Bool
  | .vnull => false
  | .vstr s => !s.data.isEmpty
  | .vlist xs => !xs.isEmpty
  | .vmap m => !m.isEmpty

/-- `dict.get(k)` without a default: `none` when absent; only mappings
support `.get`. -/
def Val.get? : Val → String → Option Val
  | .vmap m, k => lookupMap m k
  | _, _ => none

/-- Python subscript `v[k]` with a string key: mapping lookup
(`KeyError` when absent); strings, lists and `None` raise `TypeError`
for a string subscript. -/
def Val.getItem : Val → String → Except PyErr Val
  | .vmap m, k =>
      match lookupMap m k with
      | some v => .ok v
      | none => .error (.keyError k)
  | _, _ => .error .typeError

/-- Python subscript `v[0]`: head of a list (`IndexError` when empty),
first character of a string, `KeyError` on a string-keyed dict,
`TypeError` on `None`. -/
def Val.index0 : Val → Except PyErr Val
  | .vlist [] => .error .indexError
  | .vlist (x :: _) => .ok x
  | .vmap _ => .error (.keyError "0")
  | .vstr s =>
      match s.data with
      | [] => .error .indexError
      | c :: _ => .ok (.vstr (String.mk [c]))
  | .vnull => .error .typeError

/-- Python `v.lower()`: only strings have `.lower`; ASCII lowering. -/
def Val.lowerStr : Val → Except PyErr String
  | .vstr s => .ok (strLower s)
  | _ => .error .attributeError

/-- Coerce to a string where the source requires one (`Path(v)` raises
`TypeError` on a non-string). -/
def Val.asStr : Val → Except PyErr String
  | .vstr s => .ok s
  | _ => .error .typeError

/-- Python membership `k in v`: key membership for mappings, element
membership for lists, substring for strings, `TypeError` on `None`. -/
def Val.hasKeyE : Val → String → Except PyErr Bool
  | .vmap m, k => .ok (lookupMap m k).isSome
  | .vlist xs, k => .ok (xs.contains (.vstr k))
  | .vstr s, k => .ok (containsSub s.data k.data)
  | .vnull, _ => .error .typeError

/-- Python iteration `list(v)`: a list yields its elements, a dict its
keys, a string its characters; `None` raises `TypeError`. -/
def Val.iterElems : Val → Except PyErr (List Val)
  | .vlist xs => .ok xs
  | .vmap m => .ok (m.map fun e => .vstr e.1)
  | .vstr s => .ok (s.data.map fun c => .vstr (String.mk [c]))
  | .vnull => .error .typeError

/-- Python `v[k] = x`: item assignment, supported by mappings only. -/
def Val.setItem : Val → String → Val → Except PyErr Val
  | .vmap m, k, x => .ok (.vmap (setMap m k x))
  | _, _, _ => .error .typeError

/-- Python `d.get(k)` with `None` default, on a value required to be a
dict (`AttributeError` otherwise). -/
def Val.dictGet : Val → String → Except PyErr Val
  | .vmap m, k => .ok ((lookupMap m k).getD .vnull)
  | _, _ => .error .attributeError

/-- Python `d.setdefault(k, dflt)`: returns the updated dict and the
value now stored under `k`; only dicts have `.setdefault`. -/
def Val.setdefault : Val → String → Val → Except PyErr (Val × Val)
  | .vmap m, k, dflt =>
      match lookupMap m k with
      | some v => .ok (.vmap m, v)
      | none => .ok (.vmap (m ++ [(k, dflt)]), dflt)
  | _, _, _ => .error .attributeError

/-- Python `xs.append(x)`: only lists have `.append`. -/
def Val.listAppend : Val → Val → Except PyErr Val
  | .vlist xs, x => .ok (.vlist (xs ++ [x]))
  | _, _ => .error .attributeError

/-! ### The translator (`dockubeadt/translator.py`) -/

/-- `WORKLOADS` from the source: the workload kinds, lowercased. -/
def WORKLOADS : List String := ["deployment", "pod", "statefulset", "daemonset"]

/-- `is_compose`: `"services" in list(yaml.load_all(data))[0]`, over the
already-parsed document sequence (the YAML loader is an external
collaborator).  An empty document set raises `IndexError`; membership
on the first document follows Python semantics per shape. -/
def is_compose (docs : List Val) : Except PyErr Bool :=
  match docs with
  | [] => .error .indexError
  | d :: _ => d.hasKeyE "services"

/-- `get_container_from_compose`: returns the sole service name;
`ValueError` when `services` has more than one entry
(`len(services) > 1`), then `list(services.keys())[0]`. -/
def get_container_from_compose (compose : Val) : Except PyErr String :=
  match compose.getItem "services" with
  | .error e => .error e
  | .ok (.vmap m) =>
      if m.length > 1 then
        .error (.valueError "DocKubeADT does not support conversion of multiple containers")
      else
        match m with
        | [] => .error .indexError
        | (k, _) :: _ => .ok k
  | .ok (.vlist xs) =>
      if xs.length > 1 then
        .error (.valueError "DocKubeADT does not support conversion of multiple containers")
      else .error .attributeError
  | .ok (.vstr s) =>
      if s.data.length > 1 then
        .error (.valueError "DocKubeADT does not support conversion of multiple containers")
      else .error .attributeError
  | .ok .vnull => .error .typeError

/-- `get_propagation`: `{"rshared": "Bidirectional", "rslave":
"HostToContainer"}[volume["bind"]["propagation"]]`, with `KeyError` and
`TypeError` both mapped to `None`. -/
def get_propagation (volume : Val) : Option String :=
  match volume with
  | .vmap m =>
      match lookupMap m "bind" with
      | some (.vmap b) =>
          match lookupMap b "propagation" with
          | some (.vstr s) =>
              if s = "rshared" then some "Bidirectional"
              else if s = "rslave" then some "HostToContainer"
              else none
          | _ => none
      | _ => none
  | _ => none

/-- `check_bind_propagation`: `get_propagation` of each entry of
`container.get("volumes", [])`, in order.  Iterating a non-sequence
`volumes` value follows Python iteration semantics. -/
def check_bind_propagation (container : Val) : Except PyErr (List (Option String)) :=
  match container with
  | .vmap m =>
      match lookupMap m "volumes" with
      | none => .ok []
      | some vols =>
          match vols.iterElems with
          | .error e => .error e
          | .ok xs => .ok (xs.map get_propagation)
  | _ => .error .attributeError

/-- `Path(p).name` for a `/`-separated file path: the last nonempty
component. -/
def pathName (p : String) : String :=
  String.mk (((splitSlash p.data []).filter (fun c => !c.isEmpty)).getLastD [])

/-- `os.path.basename(p)`: everything after the last `/`. -/
def osBasename (p : String) : String :=
  String.mk ((splitSlash p.data []).getLastD [])

/-- `s.lower().replace(".", "-").replace("_", "-").replace(" ", "-")`:
the node-name sanitizer applied to config file basenames.  The three
replaced patterns are single characters, so `str.replace` is a
character map. -/
def sanitizeName (s : String) : String :=
  String.mk ((strLower s).data.map
    (fun c => if c = '.' ∨ c = '_' ∨ c = ' ' then '-' else c))

/-- The configmap node template built by `_add_configdata` for one
configuration entry. -/
def configmapNode (file_name : String) (file_content : Val) : Val :=
  .vmap [("type", .vstr "tosca.nodes.MiCADO.Container.Config.Kubernetes"),
         ("properties", .vmap [("data", .vmap [(file_name, file_content)])])]

/-- `_add_configdata`: one config node template per configuration
entry, keyed by the sanitized basename, inserted into `node_templates`
in order. -/
def _add_configdata : List Val → List (String × Val) → Except PyErr (List (String × Val))
  | [], nt => .ok nt
  | conf :: rest, nt =>
    match conf.getItem "file_path" with
    | .error e => .error e
    | .ok fp =>
    match fp.asStr with
    | .error e => .error e
    | .ok fpStr =>
    match conf.getItem "file_content" with
    | .error e => .error e
    | .ok file_content =>
      _add_configdata rest
        (setMap nt (sanitizeName (pathName fpStr)) (configmapNode (pathName fpStr) file_content))

/-- One iteration of `_update_propagation`'s loop body: `if not prop:
continue; mount["mountPropagation"] = prop` (a `None` or empty-string
hint leaves the mount untouched). -/
def applyHint (p : Option String) (m : Val) : Except PyErr Val :=
  match p with
  | some s => if s.data.isEmpty then .ok m else m.setItem "mountPropagation" (.vstr s)
  | none => .ok m

/-- `for prop, mount in zip(propagation, vol_mounts)`: the positional
zip of hints against mounts, shortest sequence wins. -/
def zipApply : List (Option String) → List Val → Except PyErr (List Val)
  | [], [] => .ok []
  | [], m :: ms => .ok (m :: ms)
  | _ :: _, [] => .ok []
  | p :: ps, m :: ms =>
    match applyHint p m with
    | .error e => .error e
    | .ok m' =>
      match zipApply ps ms with
      | .error e => .error e
      | .ok ms' => .ok (m' :: ms')

/-- `_update_propagation`: zips the propagation hints against
`container.get("volumeMounts", [])` and sets `mountPropagation` for
each truthy hint; a missing `volumeMounts` key leaves the container
untouched.  Iterating a dict-valued `volumeMounts` walks its keys, and
mutating those key strings does not write back into the container, as
in Python. -/
def _update_propagation (container : Val) (propagation : List (Option String)) :
    Except PyErr Val :=
  match container with
  | .vmap m =>
      match lookupMap m "volumeMounts" with
      | none => .ok container
      | some vm =>
          match vm.iterElems with
          | .error e => .error e
          | .ok elems =>
              match zipApply propagation elems with
              | .error e => .error e
              | .ok elems' =>
                  .ok (match vm with
                       | .vlist _ => .vmap (setMap m "volumeMounts" (.vlist elems'))
                       | _ => .vmap m)
  | _ => .error .attributeError

/-- The volume entry appended by `_update_configmaps`. -/
def configVolume (cfg_name : String) : Val :=
  .vmap [("name", .vstr cfg_name), ("configMap", .vmap [("name", .vstr cfg_name)])]

/-- The volume mount appended by `_update_configmaps`. -/
def configVolumeMount (cfg_name file filename : String) : Val :=
  .vmap [("name", .vstr cfg_name), ("mountPath", .vstr file), ("subPath", .vstr filename)]

/-- The `for configmap in configuration_data` loop of
`_update_configmaps`, appending to the `volumes` and `volumeMounts`
lists. -/
def updateConfigmapsLoop : List Val → Val → Val → Except PyErr (Val × Val)
  | [], vols, mnts => .ok (vols, mnts)
  | conf :: rest, vols, mnts =>
    match conf.getItem "file_path" with
    | .error e => .error e
    | .ok fp =>
    match fp.asStr with
    | .error e => .error e
    | .ok file =>
    match vols.listAppend (configVolume (sanitizeName (pathName file))) with
    | .error e => .error e
    | .ok vols' =>
    match mnts.listAppend
        (configVolumeMount (sanitizeName (pathName file)) file (osBasename file)) with
    | .error e => .error e
    | .ok mnts' => updateConfigmapsLoop rest vols' mnts'

/-- `_update_configmaps`: `spec.setdefault("volumes", [])` and
`container.setdefault("volumeMounts", [])`, then append one volume and
one volume mount per configuration entry.  Python mutates the two lists
in place; here the appended lists are written back at the same keys.
The source's `configuration_data` parameter defaults to `None`, over
which the `for` loop raises `TypeError`. -/
def _update_configmaps (spec container : Val) (configuration_data : Option (List Val)) :
    Except PyErr (Val × Val) :=
  match spec.setdefault "volumes" (.vlist []) with
  | .error e => .error e
  | .ok (spec1, vols0) =>
  match container.setdefault "volumeMounts" (.vlist []) with
  | .error e => .error e
  | .ok (container1, mnts0) =>
  match configuration_data with
  | none => .error .typeError
  | some confs =>
    match updateConfigmapsLoop confs vols0 mnts0 with
    | .error e => .error e
    | .ok (vols, mnts) =>
      match spec1.setItem "volumes" vols with
      | .error e => .error e
      | .ok spec2 =>
        match container1.setItem "volumeMounts" mnts with
        | .error e => .error e
        | .ok container2 => .ok (spec2, container2)

/-- `_to_node`: wraps a manifest verbatim under
`interfaces.Kubernetes.create.inputs`. -/
def _to_node (manifest : Val) : Val :=
  .vmap [("type", .vstr "tosca.nodes.MiCADO.Kubernetes"),
         ("interfaces", .vmap [("Kubernetes",
            .vmap [("create", .vmap [("inputs", manifest)])])])]

/-- The `spec = spec["template"]["spec"]` indirection taken when
`"containers" not in spec`. -/
def locateSpec (spec0 : Val) (hasC : Bool) : Except PyErr Val :=
  if hasC then .ok spec0
  else
    match spec0.getItem "template" with
    | .error e => .error e
    | .ok t => t.getItem "spec"

/-- `try: container = spec["containers"][0] except (IndexError,
KeyError): return None` — those two exception classes become the bare
`None`; any other exception propagates. -/
def tryContainers (spec : Val) : Except PyErr (Option (Val × Val)) :=
  match spec.getItem "containers" with
  | .error (.keyError _) => .ok none
  | .error e => .error e
  | .ok cs =>
      match cs.index0 with
      | .ok c => .ok (some (spec, c))
      | .error .indexError => .ok none
      | .error (.keyError _) => .ok none
      | .error e => .error e

/-- `get_spec_container_from_manifest`: `spec = manifest.get("spec")`;
a falsy spec returns the bare `None` (modelled `.ok none`); otherwise
the pod-template indirection applies when `"containers" not in spec`,
and the guarded `spec["containers"][0]` produces the container. -/
def get_spec_container_from_manifest (manifest : Val) : Except PyErr (Option (Val × Val)) :=
  match manifest.dictGet "spec" with
  | .error e => .error e
  | .ok spec0 =>
  if !spec0.truthy then .ok none
  else
    match spec0.hasKeyE "containers" with
    | .error e => .error e
    | .ok hasC =>
    match locateSpec spec0 hasC with
    | .error e => .error e
    | .ok spec => tryContainers spec

/-- Writes the mutated first container back into the located spec.
This is the pure-embedding image of Python's in-place mutation: the
container object returned by the locator is `spec["containers"][0]`
itself. -/
def setContainerHead (spec container : Val) : Val :=
  match spec with
  | .vmap m =>
      match lookupMap m "containers" with
      | some (.vlist (_ :: cs)) => .vmap (setMap m "containers" (.vlist (container :: cs)))
      | _ => spec
  | _ => spec

/-- `"containers" in spec` as a Bool, for the write-back path choice
(defined only where the locator succeeded, i.e. on mappings). -/
def specHasContainers (spec0 : Val) : Bool :=
  match spec0 with
  | .vmap m => (lookupMap m "containers").isSome
  | _ => false

/-- Writes the mutated spec (with its mutated first container) back
into the manifest, at `spec` or at `spec.template.spec` according to
the same branch the locator took.  Pure-embedding image of Python's
in-place mutation of the shared objects. -/
def writeBackManifest (manifest spec' container' : Val) : Val :=
  match manifest with
  | .vmap m =>
      match lookupMap m "spec" with
      | some spec0 =>
          if specHasContainers spec0 then
            .vmap (setMap m "spec" (setContainerHead spec' container'))
          else
            match spec0 with
            | .vmap sm =>
                match lookupMap sm "template" with
                | some (.vmap tm) =>
                    .vmap (setMap m "spec" (.vmap (setMap sm "template"
                      (.vmap (setMap tm "spec" (setContainerHead spec' container'))))))
                | _ => manifest
            | _ => manifest
      | none => manifest
  | _ => manifest

/-- The body of `_transform`'s per-manifest loop: computes the node
name, emits non-workload documents verbatim, locates the container of
workload documents (a bare `None` from the locator fails the tuple
unpacking with `TypeError`), applies propagation and configuration
updates, and emits the mutated document.  `.ok none` means the
document is skipped without emission (`continue` on a falsy
container). -/
def transformDoc (manifest : Val) (propagation : List (Option String))
    (configuration_data : Option (List Val)) : Except PyErr (Option (String × Val)) :=
  match manifest.getItem "metadata" with
  | .error e => .error e
  | .ok md =>
  match md.getItem "name" with
  | .error e => .error e
  | .ok nameV =>
  match nameV.lowerStr with
  | .error e => .error e
  | .ok name =>
  match manifest.getItem "kind" with
  | .error e => .error e
  | .ok kindV =>
  match kindV.lowerStr with
  | .error e => .error e
  | .ok kind =>
  if !(WORKLOADS.contains kind) then
    .ok (some (name ++ "-" ++ kind, _to_node manifest))
  else
    match get_spec_container_from_manifest manifest with
    | .error e => .error e
    | .ok none => .error .typeError
    | .ok (some (spec, container)) =>
      if !container.truthy then .ok none
      else
        match _update_propagation container propagation with
        | .error e => .error e
        | .ok container2 =>
        match _update_configmaps spec container2 configuration_data with
        | .error e => .error e
        | .ok (spec2, container3) =>
          .ok (some (name ++ "-" ++ kind,
                 _to_node (writeBackManifest manifest spec2 container3)))

/-- `_transform`: iterates the manifests in order, inserting each
emitted node template into `node_templates`. -/
def _transform (manifests : List Val) (node_templates : List (String × Val))
    (propagation : List (Option String)) (configuration_data : Option (List Val)) :
    Except PyErr (List (String × Val)) :=
  match manifests with
  | [] => .ok node_templates
  | manifest :: rest =>
    match transformDoc manifest propagation configuration_data with
    | .error e => .error e
    | .ok (some (n, v)) =>
        _transform rest (setMap node_templates n v) propagation configuration_data
    | .ok none => _transform rest node_templates propagation configuration_data

/-- `count_workloads`: the number of truthy manifests whose lowercased
`kind` is a workload kind. -/
def count_workloads : List Val → Except PyErr Nat
  | [] => .ok 0
  | m :: rest =>
    if m.truthy then
      match m.getItem "kind" with
      | .error e => .error e
      | .ok kv =>
        match kv.lowerStr with
        | .error e => .error e
        | .ok k =>
          match count_workloads rest with
          | .error e => .error e
          | .ok n => .ok ((if WORKLOADS.contains k then 1 else 0) + n)
    else count_workloads rest

/-- The ADT mapping built by `translate_manifest` (the source wraps
this single field as `{"node_templates": ...}`). -/
structure Adt where
  node_templates : List (String × Val)
deriving Repr, DecidableEq

/-- `_get_default_adt`: the empty ADT boilerplate. -/
def _get_default_adt : Adt := ⟨[]⟩

/-- `translate_manifest`: materializes the manifest iterable, enforces
workload cardinality, seeds configuration nodes when
`configuration_data is not None`, then transforms the documents. -/
def translate_manifest (manifests : Val) (propagation : List (Option String))
    (configuration_data : Option (List Val)) : Except PyErr Adt :=
  match manifests.iterElems with
  | .error e => .error e
  | .ok ms =>
    match count_workloads ms with
    | .error e => .error e
    | .ok n =>
      if n > 1 then .error (.valueError "Manifest file cannot have more than one workload.")
      else
        match (match configuration_data with
               | some confs => _add_configdata confs _get_default_adt.node_templates
               | none => .ok _get_default_adt.node_templates : Except PyErr _) with
        | .error e => .error e
        | .ok nt1 =>
          match _transform ms nt1 propagation configuration_data with
          | .error e => .error e
          | .ok nt2 => .ok ⟨nt2⟩

/-- `translate_dict`, with the external Compose Converter
(`convert_doc_to_kube`, a `kompose` subprocess) abstracted as the
`convert` parameter; YAML serialization of the result is the external
Template Assembler and is not modelled.  A manifest-set
`topology_metadata` is a `vlist` of documents, as materialized by
`list(...)` inside `translate_manifest`. -/
def translate_dict (convert : Val → String → Except PyErr (List Val))
    (deployment_format : String) (topology_metadata : Val)
    (configuration_data : Option (List Val)) : Except PyErr Adt :=
  if !(deployment_format = "docker-compose" || deployment_format = "kubernetes-manifest") then
    .error (.valueError
      "Unsupported deployment_format. Expected 'docker-compose' or 'kubernetes-manifest'")
  else
    -- `configuration_data = configuration_data or []`
    let conf : List Val :=
      match configuration_data with
      | some l => if l.isEmpty then [] else l
      | none => []
    if deployment_format = "docker-compose" then
      match get_container_from_compose topology_metadata with
      | .error e => .error e
      | .ok container_name =>
      match topology_metadata.getItem "services" with
      | .error e => .error e
      | .ok services =>
      match services.getItem container_name with
      | .error e => .error e
      | .ok container =>
      match check_bind_propagation container with
      | .error e => .error e
      | .ok propagation =>
      match convert topology_metadata container_name with
      | .error e => .error e
      | .ok manifests => translate_manifest (.vlist manifests) propagation (some conf)
    else
      translate_manifest topology_metadata [] (some conf)

/-! ### Reader-facing derived definitions used in claim statements -/

/-- The raw `manifest["metadata"]["name"]` field. -/
def rawNameOf (m : Val) : Except PyErr Val :=
  match m.getItem "metadata" with
  | .error e => .error e
  | .ok md => md.getItem "name"

/-- The node name `"{metadata.name.lower()}-{kind.lower()}"` of a
manifest document (empty where the fields are missing or
non-strings): a function of `metadata.name` and `kind` alone. -/
def nodeNameOf (m : Val) : String :=
  match (match rawNameOf m with
         | .error e => .error e
         | .ok nv => nv.lowerStr : Except PyErr String),
        (match m.getItem "kind" with
         | .error e => .error e
         | .ok kv => kv.lowerStr : Except PyErr String) with
  | .ok n, .ok k => n ++ "-" ++ k
  | _, _ => ""

/-- The sanitized config-node name of a configuration entry (empty
where `file_path` is missing or not a string). -/
def confNodeName (conf : Val) : String :=
  match conf.getItem "file_path" with
  | .ok (.vstr p) => sanitizeName (pathName p)
  | _ => ""

/-- The manifest document embedded in an emitted node template, at
`interfaces.Kubernetes.create.inputs`. -/
def inputsOf (node : Val) : Option Val :=
  node.get? "interfaces" >>= (fun v => v.get? "Kubernetes")
    >>= (fun v => v.get? "create") >>= (fun v => v.get? "inputs")

/-- The raw `volume["bind"]["propagation"]` field of a compose volume
entry, when both mapping levels are present. -/
def bindPropField (volume : Val) : Option Val :=
  volume.get? "bind" >>= (fun b => b.get? "propagation")

/-! ### Demonstration inputs -/

/-- A Service document carrying all three fields the spec calls
ephemeral. -/
def svcStatusDoc : Val :=
  .vmap [("kind", .vstr "Service"),
         ("metadata", .vmap [("name", .vstr "S"),
                             ("annotations", .vmap [("a", .vstr "b")]),
                             ("creationTimestamp", .vstr "2024-01-01")]),
         ("status", .vstr "Running")]

/-- The spec's scenario input, literally: a Pod with only `kind` and
`metadata.name`. -/
def podBareDoc : Val :=
  .vmap [("kind", .vstr "Pod"), ("metadata", .vmap [("name", .vstr "my-pod-name")])]

/-- A Pod whose `spec.containers` is an empty list. -/
def podNoContainersDoc : Val :=
  .vmap [("kind", .vstr "Pod"),
         ("metadata", .vmap [("name", .vstr "p")]),
         ("spec", .vmap [("containers", .vlist [])])]

/-- A Deployment whose pod template has an empty container list. -/
def deplNoContainersDoc : Val :=
  .vmap [("kind", .vstr "Deployment"),
         ("metadata", .vmap [("name", .vstr "d")]),
         ("spec", .vmap [("template",
            .vmap [("spec", .vmap [("containers", .vlist [])])])])]

/-- The repository test fixture: a Pod with one busybox container. -/
def podFullDoc : Val :=
  .vmap [("kind", .vstr "Pod"),
         ("metadata", .vmap [("name", .vstr "my-pod-name")]),
         ("apiVersion", .vstr "v1"),
         ("spec", .vmap [("containers",
            .vlist [.vmap [("image", .vstr "busybox")]])])]

/-! ### Helper lemmas about mapping updates -/

theorem lookupMap_setMap_self (m : List (String × Val)) (k : String) (v : Val) :
    lookupMap (setMap m k v) k = some v := by
  induction m with
  | nil => simp [setMap, lookupMap]
  | cons hd tl ih =>
    obtain ⟨k', v'⟩ := hd
    by_cases h : k' = k
    · simp [setMap, lookupMap, h]
    · simp [setMap, lookupMap, h, ih]

theorem lookupMap_setMap_ne (m : List (String × Val)) (k k' : String) (v : Val)
    (h : k' ≠ k) : lookupMap (setMap m k v) k' = lookupMap m k' := by
  induction m with
  | nil => simp [setMap, lookupMap, Ne.symm h]
  | cons hd tl ih =>
    obtain ⟨k0, v0⟩ := hd
    by_cases h0 : k0 = k
    · subst h0
      simp [setMap, lookupMap, Ne.symm h]
    · simp [setMap, lookupMap, h0, ih]

theorem setMap_of_lookup_self (m : List (String × Val)) (k : String) (v : Val)
    (h : lookupMap m k = some v) : setMap m k v = m := by
  induction m with
  | nil => simp [lookupMap] at h
  | cons hd tl ih =>
    obtain ⟨k0, v0⟩ := hd
    by_cases h0 : k0 = k
    · subst h0
      simp [lookupMap] at h
      simp [setMap, h]
    · simp [lookupMap, h0] at h
      simp [setMap, h0, ih h]

theorem setMap_fresh (m : List (String × Val)) (k : String) (v : Val)
    (h : lookupMap m k = none) : setMap m k v = m ++ [(k, v)] := by
  induction m with
  | nil => simp [setMap]
  | cons hd tl ih =>
    obtain ⟨k0, v0⟩ := hd
    by_cases h0 : k0 = k
    · simp [lookupMap, h0] at h
    · simp [lookupMap, h0] at h
      simp [setMap, h0, ih h]

theorem inputsOf_to_node (m : Val) : inputsOf (_to_node m) = some m := rfl

theorem writeBackManifest_get_ne (m s c : Val) (k : String) (hk : k ≠ "spec") :
    (writeBackManifest m s c).get? k = m.get? k := by
  unfold writeBackManifest
  cases m with
  | vmap mm =>
    cases hsp : lookupMap mm "spec" with
    | none => simp [hsp]
    | some spec0 =>
      cases hc : specHasContainers spec0 with
      | true => simp [hsp, hc, Val.get?, lookupMap_setMap_ne _ _ _ _ hk]
      | false =>
        cases spec0 with
        | vmap sm =>
          cases ht : lookupMap sm "template" with
          | none => simp [hsp, hc, ht]
          | some tv =>
            cases tv with
            | vmap tm => simp [hsp, hc, ht, Val.get?, lookupMap_setMap_ne _ _ _ _ hk]
            | vnull => simp [hsp, hc, ht]
            | vstr s2 => simp [hsp, hc, ht]
            | vlist xs => simp [hsp, hc, ht]
        | vnull => simp [hsp, hc]
        | vstr s2 => simp [hsp, hc]
        | vlist xs => simp [hsp, hc]
  | vnull => rfl
  | vstr s2 => rfl
  | vlist xs => rfl

/-- Shape of every emitted node: its key is the node-name function of
the document, and the embedded document differs from the input at most
at `spec`. -/
theorem transformDoc_ok_some (m : Val) (prop : List (Option String))
    (conf : Option (List Val)) (nm : String) (node : Val)
    (h : transformDoc m prop conf = .ok (some (nm, node))) :
    nm = nodeNameOf m ∧
    ∃ m', node = _to_node m' ∧ ∀ k, k ≠ "spec" → m'.get? k = m.get? k := by
  unfold transformDoc at h
  split at h
  · exact absurd h (by simp)
  next md hmd =>
  split at h
  · exact absurd h (by simp)
  next nameV hname =>
  split at h
  · exact absurd h (by simp)
  next name hlow =>
  split at h
  · exact absurd h (by simp)
  next kindV hkind =>
  split at h
  · exact absurd h (by simp)
  next kind hklow =>
  have hnn : nodeNameOf m = name ++ "-" ++ kind := by
    simp [nodeNameOf, rawNameOf, hmd, hname, hlow, hkind, hklow]
  split at h
  · -- non-workload: emitted verbatim
    simp only [Except.ok.injEq, Option.some.injEq, Prod.mk.injEq] at h
    obtain ⟨h2a, h2b⟩ := h
    exact ⟨by rw [hnn, ← h2a], m, by rw [← h2b], fun k _ => rfl⟩
  · -- workload: emitted after volume/config injection
    split at h
    · exact absurd h (by simp)
    · exact absurd h (by simp)
    next spec container hloc =>
    split at h
    · exact absurd h (by simp)
    split at h
    · exact absurd h (by simp)
    next container2 hup =>
    split at h
    · exact absurd h (by simp)
    next spec2 container3 hcm =>
    simp only [Except.ok.injEq, Option.some.injEq, Prod.mk.injEq] at h
    obtain ⟨h2a, h2b⟩ := h
    exact ⟨by rw [hnn, ← h2a], writeBackManifest m spec2 container3, by rw [← h2b],
      fun k hk => writeBackManifest_get_ne m spec2 container3 k hk⟩

/-! ### No step after the cardinality guard raises a `ValueError` -/

theorem noVE_getItem (v : Val) (k s : String) : v.getItem k ≠ .error (.valueError s) := by
  cases v with
  | vmap m => cases h : lookupMap m k <;> simp [Val.getItem, h]
  | vnull => simp [Val.getItem]
  | vstr t => simp [Val.getItem]
  | vlist xs => simp [Val.getItem]

theorem noVE_lowerStr (v : Val) (s : String) : v.lowerStr ≠ .error (.valueError s) := by
  cases v <;> simp [Val.lowerStr]

theorem noVE_asStr (v : Val) (s : String) : v.asStr ≠ .error (.valueError s) := by
  cases v <;> simp [Val.asStr]

theorem noVE_hasKeyE (v : Val) (k s : String) : v.hasKeyE k ≠ .error (.valueError s) := by
  cases v <;> simp [Val.hasKeyE]

theorem noVE_iterElems (v : Val) (s : String) : v.iterElems ≠ .error (.valueError s) := by
  cases v <;> simp [Val.iterElems]

theorem noVE_index0 (v : Val) (s : String) : v.index0 ≠ .error (.valueError s) := by
  cases v with
  | vlist xs => cases xs <;> simp [Val.index0]
  | vstr t => cases h : t.data <;> simp [Val.index0, h]
  | vmap m => simp [Val.index0]
  | vnull => simp [Val.index0]

theorem noVE_setItem (v : Val) (k : String) (x : Val) (s : String) :
    v.setItem k x ≠ .error (.valueError s) := by
  cases v <;> simp [Val.setItem]

theorem noVE_dictGet (v : Val) (k s : String) : v.dictGet k ≠ .error (.valueError s) := by
  cases v <;> simp [Val.dictGet]

theorem noVE_setdefault (v : Val) (k : String) (d : Val) (s : String) :
    v.setdefault k d ≠ .error (.valueError s) := by
  cases v with
  | vmap m => cases h : lookupMap m k <;> simp [Val.setdefault, h]
  | vnull => simp [Val.setdefault]
  | vstr t => simp [Val.setdefault]
  | vlist xs => simp [Val.setdefault]

theorem noVE_listAppend (v x : Val) (s : String) :
    v.listAppend x ≠ .error (.valueError s) := by
  cases v <;> simp [Val.listAppend]

theorem noVE_locateSpec (spec0 : Val) (hasC : Bool) (s : String) :
    locateSpec spec0 hasC ≠ .error (.valueError s) := by
  cases hasC with
  | true => simp [locateSpec]
  | false =>
    intro hh
    unfold locateSpec at hh
    rw [if_neg (by simp)] at hh
    split at hh
    · next e h => injection hh with h2; subst h2; exact noVE_getItem spec0 "template" s h
    · next t h => exact noVE_getItem t "spec" s hh

theorem noVE_tryContainers (spec : Val) (s : String) :
    tryContainers spec ≠ .error (.valueError s) := by
  intro hh
  unfold tryContainers at hh
  cases hgi : spec.getItem "containers" with
  | error e =>
    cases e with
    | valueError t => exact noVE_getItem spec "containers" t hgi
    | keyError k => simp [hgi] at hh
    | typeError => simp [hgi] at hh
    | indexError => simp [hgi] at hh
    | attributeError => simp [hgi] at hh
  | ok cs =>
    cases hi : cs.index0 with
    | ok c => simp [hgi, hi] at hh
    | error e =>
      cases e with
      | valueError t => exact noVE_index0 cs t hi
      | keyError k => simp [hgi, hi] at hh
      | typeError => simp [hgi, hi] at hh
      | indexError => simp [hgi, hi] at hh
      | attributeError => simp [hgi, hi] at hh

theorem noVE_getspec (m : Val) (s : String) :
    get_spec_container_from_manifest m ≠ .error (.valueError s) := by
  intro hh
  unfold get_spec_container_from_manifest at hh
  split at hh
  · next e h => injection hh with h2; subst h2; exact noVE_dictGet m "spec" s h
  next spec0 hsp =>
  split at hh
  · exact Except.noConfusion hh
  split at hh
  · next e h => injection hh with h2; subst h2; exact noVE_hasKeyE spec0 "containers" s h
  next hasC hk =>
  split at hh
  · next e h => injection hh with h2; subst h2; exact noVE_locateSpec spec0 hasC s h
  next spec hr => exact noVE_tryContainers spec s hh

theorem noVE_zipApply (ps : List (Option String)) (ms : List Val) (s : String) :
    zipApply ps ms ≠ .error (.valueError s) := by
  induction ms generalizing ps with
  | nil => cases ps <;> simp [zipApply]
  | cons m rest ih =>
    cases ps with
    | nil => simp [zipApply]
    | cons p pt =>
      intro hh
      unfold zipApply at hh
      split at hh
      · next e h =>
        injection hh with h2
        subst h2
        cases p with
        | none => simp [applyHint] at h
        | some str =>
          by_cases hs : str.data.isEmpty = true
          · simp [applyHint, hs] at h
          · simp [applyHint, hs] at h
            exact noVE_setItem m "mountPropagation" (.vstr str) s h
      next m2 hm2 =>
      split at hh
      · next e h => injection hh with h2; subst h2; exact ih pt h
      · exact Except.noConfusion hh

theorem noVE_update_propagation (c : Val) (ps : List (Option String)) (s : String) :
    _update_propagation c ps ≠ .error (.valueError s) := by
  intro hh
  unfold _update_propagation at hh
  split at hh
  next cm =>
    split at hh
    · exact Except.noConfusion hh
    next vm hvm =>
      split at hh
      · next e h => injection hh with h2; subst h2; exact noVE_iterElems vm s h
      next elems helems =>
        split at hh
        · next e h => injection hh with h2; subst h2; exact noVE_zipApply ps elems s (by rw [h])
        · exact Except.noConfusion hh
  · injection hh with h2; exact PyErr.noConfusion h2

theorem noVE_updateConfigmapsLoop (confs : List Val) (vols mnts : Val) (s : String) :
    updateConfigmapsLoop confs vols mnts ≠ .error (.valueError s) := by
  induction confs generalizing vols mnts with
  | nil => simp [updateConfigmapsLoop]
  | cons conf rest ih =>
    intro hh
    unfold updateConfigmapsLoop at hh
    split at hh
    · next e h => injection hh with h2; subst h2; exact noVE_getItem conf "file_path" s h
    next fp hfp =>
    split at hh
    · next e h => injection hh with h2; subst h2; exact noVE_asStr fp s h
    next file hfile =>
    split at hh
    · next e h =>
      injection hh with h2
      subst h2
      exact noVE_listAppend vols (configVolume (sanitizeName (pathName file))) s h
    next vols2 hvols =>
    split at hh
    · next e h =>
      injection hh with h2
      subst h2
      exact noVE_listAppend mnts
        (configVolumeMount (sanitizeName (pathName file)) file (osBasename file)) s h
    next mnts2 hmnts =>
    exact ih vols2 mnts2 hh

theorem noVE_update_configmaps (spec c : Val) (conf : Option (List Val)) (s : String) :
    _update_configmaps spec c conf ≠ .error (.valueError s) := by
  intro hh
  unfold _update_configmaps at hh
  split at hh
  · next e h => injection hh with h2; subst h2; exact noVE_setdefault spec "volumes" _ s h
  next spec1 vols0 h1 =>
  split at hh
  · next e h => injection hh with h2; subst h2; exact noVE_setdefault c "volumeMounts" _ s h
  next c1 mnts0 h2 =>
  split at hh
  · injection hh with h3; exact PyErr.noConfusion h3
  next confs =>
  split at hh
  · next e h => injection hh with h3; subst h3; exact noVE_updateConfigmapsLoop confs vols0 mnts0 s (by rw [h])
  next vols mnts h3 =>
  split at hh
  · next e h => injection hh with h4; subst h4; exact noVE_setItem spec1 "volumes" vols s h
  next spec2 h4 =>
  split at hh
  · next e h => injection hh with h5; subst h5; exact noVE_setItem c1 "volumeMounts" mnts s h
  · exact Except.noConfusion hh

theorem noVE_add_configdata (confs : List Val) (nt : List (String × Val)) (s : String) :
    _add_configdata confs nt ≠ .error (.valueError s) := by
  induction confs generalizing nt with
  | nil => simp [_add_configdata]
  | cons conf rest ih =>
    intro hh
    unfold _add_configdata at hh
    split at hh
    · next e h => injection hh with h2; subst h2; exact noVE_getItem conf "file_path" s h
    next fp hfp =>
    split at hh
    · next e h => injection hh with h2; subst h2; exact noVE_asStr fp s h
    next fps hfps =>
    split at hh
    · next e h => injection hh with h2; subst h2; exact noVE_getItem conf "file_content" s h
    next fc hfc =>
    exact ih _ hh

theorem noVE_transformDoc (m : Val) (prop : List (Option String))
    (conf : Option (List Val)) (s : String) :
    transformDoc m prop conf ≠ .error (.valueError s) := by
  intro hh
  unfold transformDoc at hh
  split at hh
  · next e h => injection hh with h2; subst h2; exact noVE_getItem m "metadata" s h
  next md hmd =>
  split at hh
  · next e h => injection hh with h2; subst h2; exact noVE_getItem md "name" s h
  next nameV hname =>
  split at hh
  · next e h => injection hh with h2; subst h2; exact noVE_lowerStr nameV s h
  next name hlow =>
  split at hh
  · next e h => injection hh with h2; subst h2; exact noVE_getItem m "kind" s h
  next kindV hkind =>
  split at hh
  · next e h => injection hh with h2; subst h2; exact noVE_lowerStr kindV s h
  next kind hklow =>
  split at hh
  · exact Except.noConfusion hh
  · split at hh
    · next e h => injection hh with h2; subst h2; exact noVE_getspec m s (by rw [h])
    · injection hh with h2; exact PyErr.noConfusion h2
    next spec container hloc =>
    split at hh
    · exact Except.noConfusion hh
    split at hh
    · next e h => injection hh with h2; subst h2; exact noVE_update_propagation container prop s (by rw [h])
    next c2 hup =>
    split at hh
    · next e h => injection hh with h2; subst h2; exact noVE_update_configmaps spec c2 conf s (by rw [h])
    · exact Except.noConfusion hh

theorem noVE_transform (ms : List Val) (nt : List (String × Val))
    (prop : List (Option String)) (conf : Option (List Val)) (s : String) :
    _transform ms nt prop conf ≠ .error (.valueError s) := by
  induction ms generalizing nt with
  | nil => simp [_transform]
  | cons m rest ih =>
    intro hh
    unfold _transform at hh
    split at hh
    · next e h => injection hh with h2; subst h2; exact noVE_transformDoc m prop conf s (by rw [h])
    · next nv h => exact ih _ hh
    · next h => exact ih _ hh

/-! ### Claim C4 -/

/-- C4: when the workload count of a manifest set is two or more,
`translate_manifest` fails with the cardinality `ValueError` ("more
than one workload"), whatever the propagation and configuration inputs
— so before any node template is built; when the count is zero or one
the cardinality check passes and no `ValueError` whatsoever is raised
(the spec's `ValidationError` is this `ValueError`). -/
theorem C4_cardinality (docs : List Val) (n : Nat) (h : count_workloads docs = .ok n) :
    (2 ≤ n → ∀ prop conf, translate_manifest (.vlist docs) prop conf =
        .error (.valueError "Manifest file cannot have more than one workload.")) ∧
    (n ≤ 1 → ∀ prop conf s, translate_manifest (.vlist docs) prop conf ≠
        .error (.valueError s)) := by
  constructor
  · intro h2 prop conf
    have h3 : n > 1 := h2
    simp [translate_manifest, Val.iterElems, h, h3]
  · intro h2 prop conf s hh
    have h3 : ¬ (n > 1) := by omega
    simp only [translate_manifest, Val.iterElems, h, h3, if_false, _get_default_adt] at hh
    cases conf with
    | none =>
      cases htr : _transform docs [] prop none with
      | error e =>
        simp [htr] at hh
        exact noVE_transform docs [] prop none s (hh ▸ htr)
      | ok nt2 => simp [htr] at hh
    | some confs =>
      cases hac : _add_configdata confs [] with
      | error e =>
        simp [hac] at hh
        exact noVE_add_configdata confs [] s (hh ▸ hac)
      | ok nt1 =>
        cases htr : _transform docs nt1 prop (some confs) with
        | error e =>
          simp [hac, htr] at hh
          exact noVE_transform docs nt1 prop (some confs) s (hh ▸ htr)
        | ok nt2 => simp [hac, htr] at hh

/-- C4, witness: two Pods trigger the cardinality error; a lone
Service (zero workloads) never produces it. -/
theorem C4_witness :
    translate_manifest (.vlist [podFullDoc, podFullDoc]) [] (some []) =
      .error (.valueError "Manifest file cannot have more than one workload.") ∧
    translate_manifest (.vlist [svcStatusDoc]) [] (some []) ≠
      .error (.valueError "Manifest file cannot have more than one workload.") := by
  constructor
  · exact (C4_cardinality [podFullDoc, podFullDoc] 2 (by decide)).1 (by decide) [] (some [])
  · exact (C4_cardinality [svcStatusDoc] 0 (by decide)).2 (by decide) [] (some []) _

/-! ### Claim C5 -/

/-- A compose unit with two services. -/
def composeTwoSvcs : Val :=
  .vmap [("services", .vmap [("db", .vmap []), ("web", .vmap [])])]

/-- A compose unit with exactly one service. -/
def composeOneSvc : Val :=
  .vmap [("services", .vmap [("db", .vmap [("image", .vstr "postgres")])])]

/-- C5: a compose unit whose `services` mapping has two or more entries
makes `translate_dict` fail with the multiple-containers `ValueError`
for every converter — the external Compose Converter is never invoked,
the result being independent of it; with exactly one service the sole
service name is returned and the pipeline proceeds into the converter
and `translate_manifest`. -/
theorem C5_single_service (cm svcs : List (String × Val))
    (hs : lookupMap cm "services" = some (.vmap svcs)) :
    (2 ≤ svcs.length → ∀ convert conf,
      translate_dict convert "docker-compose" (.vmap cm) conf =
        .error (.valueError
          "DocKubeADT does not support conversion of multiple containers")) ∧
    (∀ nm svc, svcs = [(nm, svc)] →
      get_container_from_compose (.vmap cm) = .ok nm ∧
      ∀ convert conf,
        translate_dict convert "docker-compose" (.vmap cm) conf =
          match check_bind_propagation svc with
          | .error e => .error e
          | .ok propagation =>
            match convert (.vmap cm) nm with
            | .error e => .error e
            | .ok manifests =>
              translate_manifest (.vlist manifests) propagation
                (some (match conf with
                       | some l => if l.isEmpty then [] else l
                       | none => []))) := by
  constructor
  · intro h2 convert conf
    have h3 : svcs.length > 1 := h2
    have hgc : get_container_from_compose (.vmap cm) =
        .error (.valueError
          "DocKubeADT does not support conversion of multiple containers") := by
      simp [get_container_from_compose, Val.getItem, hs, h3]
    simp [translate_dict, hgc]
  · intro nm svc hsv
    subst hsv
    have hgc : get_container_from_compose (.vmap cm) = .ok nm := by
      simp [get_container_from_compose, Val.getItem, hs]
    refine ⟨hgc, ?_⟩
    intro convert conf
    simp [translate_dict, hgc, Val.getItem, hs, lookupMap]

/-- C5, witness: two services fail before any conversion; one service
yields its name. -/
theorem C5_witness :
    translate_dict (fun _ _ => .ok []) "docker-compose" composeTwoSvcs (some []) =
      .error (.valueError
        "DocKubeADT does not support conversion of multiple containers") ∧
    get_container_from_compose composeOneSvc = .ok "db" := by
  constructor
  · exact (C5_single_service
      [("services", .vmap [("db", .vmap []), ("web", .vmap [])])]
      [("db", .vmap []), ("web", .vmap [])] (by decide)).1 (by decide) _ (some [])
  · exact ((C5_single_service
      [("services", .vmap [("db", .vmap [("image", .vstr "postgres")])])]
      [("db", .vmap [("image", .vstr "postgres")])] (by decide)).2
      "db" (.vmap [("image", .vstr "postgres")]) rfl).1

/-! ### Claim C7 -/

/-- The pointwise effect of one propagation hint on one mount: a
present hint sets `mountPropagation`, an absent hint leaves the mount
untouched. -/
def setPropOn (p : Option String) (m : Val) : Val :=
  match p, m with
  | some s, .vmap mm => .vmap (setMap mm "mountPropagation" (.vstr s))
  | _, _ => m

theorem getprop_char (v : Val) :
    (get_propagation v = some "Bidirectional" ↔ bindPropField v = some (.vstr "rshared")) ∧
    (get_propagation v = some "HostToContainer" ↔ bindPropField v = some (.vstr "rslave")) ∧
    (bindPropField v ≠ some (.vstr "rshared") → bindPropField v ≠ some (.vstr "rslave") →
      get_propagation v = none) := by
  cases v with
  | vmap m =>
    cases hb : lookupMap m "bind" with
    | none => simp [get_propagation, bindPropField, Val.get?, hb]
    | some b =>
      cases b with
      | vmap bm =>
        cases hp : lookupMap bm "propagation" with
        | none => simp [get_propagation, bindPropField, Val.get?, hb, hp]
        | some pv =>
          cases pv with
          | vstr s =>
            by_cases h1 : s = "rshared"
            · subst h1
              simp [get_propagation, bindPropField, Val.get?, hb, hp]
            · by_cases h2 : s = "rslave"
              · subst h2
                simp [get_propagation, bindPropField, Val.get?, hb, hp]
              · simp [get_propagation, bindPropField, Val.get?, hb, hp, h1, h2]
          | vnull => simp [get_propagation, bindPropField, Val.get?, hb, hp]
          | vlist xs => simp [get_propagation, bindPropField, Val.get?, hb, hp]
          | vmap mm => simp [get_propagation, bindPropField, Val.get?, hb, hp]
      | vnull => simp [get_propagation, bindPropField, Val.get?, hb]
      | vstr s => simp [get_propagation, bindPropField, Val.get?, hb]
      | vlist xs => simp [get_propagation, bindPropField, Val.get?, hb]
  | vnull => simp [get_propagation, bindPropField, Val.get?]
  | vstr s => simp [get_propagation, bindPropField, Val.get?]
  | vlist xs => simp [get_propagation, bindPropField, Val.get?]

theorem getprop_range (v : Val) :
    get_propagation v = none ∨ get_propagation v = some "Bidirectional" ∨
      get_propagation v = some "HostToContainer" := by
  cases v with
  | vmap m =>
    cases hb : lookupMap m "bind" with
    | none => simp [get_propagation, hb]
    | some b =>
      cases b with
      | vmap bm =>
        cases hp : lookupMap bm "propagation" with
        | none => simp [get_propagation, hb, hp]
        | some pv =>
          cases pv with
          | vstr s =>
            by_cases h1 : s = "rshared"
            · simp [get_propagation, hb, hp, h1]
            · by_cases h2 : s = "rslave" <;> simp [get_propagation, hb, hp, h1, h2]
          | vnull => simp [get_propagation, hb, hp]
          | vlist xs => simp [get_propagation, hb, hp]
          | vmap mm => simp [get_propagation, hb, hp]
      | vnull => simp [get_propagation, hb]
      | vstr s => simp [get_propagation, hb]
      | vlist xs => simp [get_propagation, hb]
  | vnull => simp [get_propagation]
  | vstr s => simp [get_propagation]
  | vlist xs => simp [get_propagation]

theorem setPropOn_none (m : Val) : setPropOn none m = m := by
  cases m <;> rfl

theorem zipApply_pointwise (ps : List (Option String)) (ms : List Val)
    (hm : ∀ m ∈ ms, ∃ mm, m = .vmap mm) (hp : ∀ p ∈ ps, p ≠ some "") :
    ∃ ms', zipApply ps ms = .ok ms' ∧ ms'.length = ms.length ∧
      ∀ i : Nat, ms'[i]? = (ms[i]?).map (setPropOn (ps[i]?).join) := by
  induction ps generalizing ms with
  | nil =>
    cases ms with
    | nil => exact ⟨[], rfl, rfl, fun i => by simp⟩
    | cons m rest =>
      exact ⟨m :: rest, rfl, rfl,
        fun i => by cases h : (m :: rest)[i]? <;> simp [h, setPropOn_none]⟩
  | cons p pt ih =>
    cases ms with
    | nil => exact ⟨[], rfl, rfl, fun i => by simp⟩
    | cons m rest =>
      have hm0 := hm m (by simp)
      obtain ⟨mm, rfl⟩ := hm0
      obtain ⟨ms', hz, hlen, hpt⟩ :=
        ih rest (fun x hx => hm x (by simp [hx])) (fun q hq => hp q (by simp [hq]))
      have hstep : applyHint p (.vmap mm) = .ok (setPropOn p (.vmap mm)) := by
        cases p with
        | none => simp [applyHint, setPropOn]
        | some s =>
          have hs : s ≠ "" := by
            intro hc
            exact hp (some s) (by simp) (by rw [hc])
          have hs2 : ¬ s.data.isEmpty = true := by
            intro hc
            apply hs
            cases s with
            | mk l => cases l <;> simp_all
          simp [applyHint, setPropOn, hs2, Val.setItem]
      refine ⟨setPropOn p (.vmap mm) :: ms', ?_, by simp [hlen], ?_⟩
      · unfold zipApply
        rw [hstep, hz]
      · intro i
        cases i with
        | zero => simp
        | succ j => simpa using hpt j

/-- C7: the hint sequence is `get_propagation` of each volume entry in
order, where `rshared` maps to `Bidirectional`, `rslave` to
`HostToContainer`, and anything else or missing to `none`; applying it
zips positionally against the existing `volumeMounts`
(shortest-sequence-wins), setting `mountPropagation` exactly on the
mounts paired with a non-`none` hint, unchanged elsewhere; an absent
`volumeMounts` key is a silent no-op. -/
theorem C7_propagation :
    (∀ cm vs, lookupMap cm "volumes" = some (.vlist vs) →
      check_bind_propagation (.vmap cm) = .ok (vs.map get_propagation)) ∧
    (∀ cm, lookupMap cm "volumes" = none →
      check_bind_propagation (.vmap cm) = .ok []) ∧
    (∀ v, (get_propagation v = some "Bidirectional" ↔
            bindPropField v = some (.vstr "rshared")) ∧
          (get_propagation v = some "HostToContainer" ↔
            bindPropField v = some (.vstr "rslave")) ∧
          (bindPropField v ≠ some (.vstr "rshared") →
            bindPropField v ≠ some (.vstr "rslave") → get_propagation v = none)) ∧
    (∀ cm mounts props, lookupMap cm "volumeMounts" = some (.vlist mounts) →
      (∀ m ∈ mounts, ∃ mm, m = .vmap mm) → (∀ p ∈ props, p ≠ some "") →
      ∃ mounts', _update_propagation (.vmap cm) props =
          .ok (.vmap (setMap cm "volumeMounts" (.vlist mounts'))) ∧
        mounts'.length = mounts.length ∧
        ∀ i : Nat, mounts'[i]? = (mounts[i]?).map (setPropOn (props[i]?).join)) ∧
    (∀ cm props, lookupMap cm "volumeMounts" = none →
      _update_propagation (.vmap cm) props = .ok (.vmap cm)) := by
  refine ⟨?_, ?_, getprop_char, ?_, ?_⟩
  · intro cm vs h
    simp [check_bind_propagation, h, Val.iterElems]
  · intro cm h
    simp [check_bind_propagation, h]
  · intro cm mounts props h hm hp
    obtain ⟨ms', hz, hlen, hpt⟩ := zipApply_pointwise props mounts hm hp
    refine ⟨ms', ?_, hlen, hpt⟩
    simp [_update_propagation, h, Val.iterElems, hz]
  · intro cm props h
    simp [_update_propagation, h]

/-- C7, witness: an `rshared` and an unmarked volume produce hints
`[Bidirectional, none]`, and applying them to two mounts sets
`mountPropagation` on exactly the first. -/
theorem C7_witness :
    check_bind_propagation (.vmap [("volumes",
        .vlist [.vmap [("bind", .vmap [("propagation", .vstr "rshared")])],
                .vstr "./a:/b"])]) =
      .ok [some "Bidirectional", none] ∧
    ∃ mounts', _update_propagation
        (.vmap [("image", .vstr "busybox"),
                ("volumeMounts", .vlist [.vmap [("mountPath", .vstr "/b")],
                                         .vmap [("mountPath", .vstr "/c")]])])
        [some "Bidirectional", none] =
        .ok (.vmap (setMap [("image", .vstr "busybox"),
                            ("volumeMounts", .vlist [.vmap [("mountPath", .vstr "/b")],
                                                     .vmap [("mountPath", .vstr "/c")]])]
          "volumeMounts" (.vlist mounts'))) ∧
      mounts'.length = ([.vmap [("mountPath", .vstr "/b")],
                         .vmap [("mountPath", .vstr "/c")]] : List Val).length ∧
      ∀ i : Nat, mounts'[i]? =
        (([.vmap [("mountPath", .vstr "/b")], .vmap [("mountPath", .vstr "/c")]] :
            List Val)[i]?).map
          (setPropOn ((([some "Bidirectional", none] :
            List (Option String))[i]?).join)) := by
  constructor
  · have h := C7_propagation.1
      [("volumes", .vlist [.vmap [("bind", .vmap [("propagation", .vstr "rshared")])],
                           .vstr "./a:/b"])]
      [.vmap [("bind", .vmap [("propagation", .vstr "rshared")])], .vstr "./a:/b"]
      (by decide)
    rw [h]
    decide
  · exact C7_propagation.2.2.2.1
      [("image", .vstr "busybox"),
       ("volumeMounts", .vlist [.vmap [("mountPath", .vstr "/b")],
                                .vmap [("mountPath", .vstr "/c")]])]
      [.vmap [("mountPath", .vstr "/b")], .vmap [("mountPath", .vstr "/c")]]
      [some "Bidirectional", none]
      (by decide)
      (by intro m hm; fin_cases hm <;> exact ⟨_, rfl⟩)
      (by intro p hp; fin_cases hp <;> simp)

/-! ### Claim C6 -/

/-- Well-formedness of a configuration entry: `file_path` is a string
and `file_content` is present. -/
def ConfWF (conf : Val) : Prop :=
  ∃ p c, conf.getItem "file_path" = .ok (.vstr p) ∧ conf.getItem "file_content" = .ok c

/-- The `file_path` string of a configuration entry (empty where
missing or not a string). -/
def confPath (conf : Val) : String :=
  match conf.getItem "file_path" with
  | .ok (.vstr p) => p
  | _ => ""

/-- The `file_content` value of a configuration entry. -/
def confContent (conf : Val) : Val :=
  match conf.getItem "file_content" with
  | .ok c => c
  | _ => .vnull

theorem lookupMap_append_single_ne (m : List (String × Val)) (key k : String) (v : Val)
    (h : k ≠ key) : lookupMap (m ++ [(key, v)]) k = lookupMap m k := by
  induction m with
  | nil => simp [lookupMap, Ne.symm h]
  | cons hd tl ih =>
    obtain ⟨k0, v0⟩ := hd
    by_cases h0 : k0 = k
    · simp [lookupMap, h0]
    · simp [lookupMap, h0, ih]

theorem updateConfigmapsLoop_eq (confs : List Val) (vols mnts : List Val)
    (hwf : ∀ conf ∈ confs, ConfWF conf) :
    updateConfigmapsLoop confs (.vlist vols) (.vlist mnts) =
      .ok (.vlist (vols ++ confs.map (fun c => configVolume (confNodeName c))),
           .vlist (mnts ++ confs.map (fun c =>
             configVolumeMount (confNodeName c) (confPath c) (osBasename (confPath c))))) := by
  induction confs generalizing vols mnts with
  | nil => simp [updateConfigmapsLoop]
  | cons conf rest ih =>
    obtain ⟨p, c, hp, hc⟩ := hwf conf (by simp)
    have hcp : confPath conf = p := by simp [confPath, hp]
    have hcn : confNodeName conf = sanitizeName (pathName p) := by simp [confNodeName, hp]
    have ih2 := ih (vols ++ [configVolume (sanitizeName (pathName p))])
      (mnts ++ [configVolumeMount (sanitizeName (pathName p)) p (osBasename p)])
      (fun x hx => hwf x (by simp [hx]))
    simp only [updateConfigmapsLoop, hp, Val.asStr, Val.listAppend, ih2]
    simp [hcp, hcn]

/-- Full characterization of `_update_configmaps` on well-formed
inputs: `volumes` and `volumeMounts` are ensured and receive one
appended entry per configuration entry, in order; every other key of
the spec and of the container is untouched. -/
theorem update_configmaps_spec (sm cm : List (String × Val)) (confs : List Val)
    (vols0 mnts0 : List Val)
    (hv : lookupMap sm "volumes" = some (.vlist vols0) ∨
          (lookupMap sm "volumes" = none ∧ vols0 = []))
    (hm : lookupMap cm "volumeMounts" = some (.vlist mnts0) ∨
          (lookupMap cm "volumeMounts" = none ∧ mnts0 = []))
    (hwf : ∀ conf ∈ confs, ConfWF conf) :
    ∃ sm' cm' : List (String × Val),
      _update_configmaps (.vmap sm) (.vmap cm) (some confs) =
        .ok (.vmap sm', .vmap cm') ∧
      lookupMap sm' "volumes" =
        some (.vlist (vols0 ++ confs.map (fun c => configVolume (confNodeName c)))) ∧
      (∀ k, k ≠ "volumes" → lookupMap sm' k = lookupMap sm k) ∧
      lookupMap cm' "volumeMounts" =
        some (.vlist (mnts0 ++ confs.map (fun c =>
          configVolumeMount (confNodeName c) (confPath c) (osBasename (confPath c))))) ∧
      (∀ k, k ≠ "volumeMounts" → lookupMap cm' k = lookupMap cm k) := by
  have hloop := updateConfigmapsLoop_eq confs vols0 mnts0 hwf
  rcases hv with hv | ⟨hv, rfl⟩ <;> rcases hm with hm | ⟨hm, rfl⟩
  · have heq : _update_configmaps (.vmap sm) (.vmap cm) (some confs) =
        .ok (.vmap (setMap sm "volumes"
               (.vlist (vols0 ++ confs.map (fun c => configVolume (confNodeName c))))),
             .vmap (setMap cm "volumeMounts"
               (.vlist (mnts0 ++ confs.map (fun c => configVolumeMount (confNodeName c)
                  (confPath c) (osBasename (confPath c))))))) := by
      simp [_update_configmaps, Val.setdefault, hv, hm, hloop, Val.setItem]
    exact ⟨_, _, heq, lookupMap_setMap_self .., fun k hk => lookupMap_setMap_ne _ _ _ _ hk,
      lookupMap_setMap_self .., fun k hk => lookupMap_setMap_ne _ _ _ _ hk⟩
  · have heq : _update_configmaps (.vmap sm) (.vmap cm) (some confs) =
        .ok (.vmap (setMap sm "volumes"
               (.vlist (vols0 ++ confs.map (fun c => configVolume (confNodeName c))))),
             .vmap (setMap (cm ++ [("volumeMounts", .vlist [])]) "volumeMounts"
               (.vlist ([] ++ confs.map (fun c => configVolumeMount (confNodeName c)
                  (confPath c) (osBasename (confPath c))))))) := by
      simp [_update_configmaps, Val.setdefault, hv, hm, hloop, Val.setItem]
    refine ⟨_, _, heq, lookupMap_setMap_self ..,
      fun k hk => lookupMap_setMap_ne _ _ _ _ hk, lookupMap_setMap_self .., ?_⟩
    intro k hk
    rw [lookupMap_setMap_ne _ _ _ _ hk, lookupMap_append_single_ne _ _ _ _ hk]
  · have heq : _update_configmaps (.vmap sm) (.vmap cm) (some confs) =
        .ok (.vmap (setMap (sm ++ [("volumes", .vlist [])]) "volumes"
               (.vlist ([] ++ confs.map (fun c => configVolume (confNodeName c))))),
             .vmap (setMap cm "volumeMounts"
               (.vlist (mnts0 ++ confs.map (fun c => configVolumeMount (confNodeName c)
                  (confPath c) (osBasename (confPath c))))))) := by
      simp [_update_configmaps, Val.setdefault, hv, hm, hloop, Val.setItem]
    refine ⟨_, _, heq, lookupMap_setMap_self .., ?_,
      lookupMap_setMap_self .., fun k hk => lookupMap_setMap_ne _ _ _ _ hk⟩
    intro k hk
    rw [lookupMap_setMap_ne _ _ _ _ hk, lookupMap_append_single_ne _ _ _ _ hk]
  · have heq : _update_configmaps (.vmap sm) (.vmap cm) (some confs) =
        .ok (.vmap (setMap (sm ++ [("volumes", .vlist [])]) "volumes"
               (.vlist ([] ++ confs.map (fun c => configVolume (confNodeName c))))),
             .vmap (setMap (cm ++ [("volumeMounts", .vlist [])]) "volumeMounts"
               (.vlist ([] ++ confs.map (fun c => configVolumeMount (confNodeName c)
                  (confPath c) (osBasename (confPath c))))))) := by
      simp [_update_configmaps, Val.setdefault, hv, hm, hloop, Val.setItem]
    refine ⟨_, _, heq, lookupMap_setMap_self .., ?_, lookupMap_setMap_self .., ?_⟩
    · intro k hk
      rw [lookupMap_setMap_ne _ _ _ _ hk, lookupMap_append_single_ne _ _ _ _ hk]
    · intro k hk
      rw [lookupMap_setMap_ne _ _ _ _ hk, lookupMap_append_single_ne _ _ _ _ hk]

/-- C6: each configuration entry contributes (i) a config node template
of the fixed config type, named by the sanitized basename and carrying
`{filename: content}`, inserted by `_add_configdata`; (ii) an appended
`volumeMounts` entry `{name, mountPath, subPath}` on the located
container which carries `mountPropagation` only if the entry supplies a
truthy `mount_propagation` (in fact it never carries one); and (iii) an
appended `{name, configMap: {name}}` entry on the owning spec's
`volumes`. -/
theorem C6_configdata :
    (∀ conf p c nt rest, conf.getItem "file_path" = .ok (.vstr p) →
      conf.getItem "file_content" = .ok c →
      _add_configdata (conf :: rest) nt =
        _add_configdata rest
          (setMap nt (sanitizeName (pathName p)) (configmapNode (pathName p) c))) ∧
    (∀ sm cm confs vols0 mnts0,
      (lookupMap sm "volumes" = some (.vlist vols0) ∨
        (lookupMap sm "volumes" = none ∧ vols0 = [])) →
      (lookupMap cm "volumeMounts" = some (.vlist mnts0) ∨
        (lookupMap cm "volumeMounts" = none ∧ mnts0 = [])) →
      (∀ conf ∈ confs, ConfWF conf) →
      ∃ sm' cm' : List (String × Val),
        _update_configmaps (.vmap sm) (.vmap cm) (some confs) =
          .ok (.vmap sm', .vmap cm') ∧
        lookupMap sm' "volumes" =
          some (.vlist (vols0 ++ confs.map (fun c => configVolume (confNodeName c)))) ∧
        (∀ k, k ≠ "volumes" → lookupMap sm' k = lookupMap sm k) ∧
        lookupMap cm' "volumeMounts" =
          some (.vlist (mnts0 ++ confs.map (fun c =>
            configVolumeMount (confNodeName c) (confPath c) (osBasename (confPath c))))) ∧
        (∀ k, k ≠ "volumeMounts" → lookupMap cm' k = lookupMap cm k)) ∧
    (∀ conf,
      (configVolumeMount (confNodeName conf) (confPath conf)
        (osBasename (confPath conf))).get? "mountPropagation" = none ∧
      ((configVolumeMount (confNodeName conf) (confPath conf)
          (osBasename (confPath conf))).get? "mountPropagation" ≠ none →
        ∃ mp, conf.getItem "mount_propagation" = .ok mp ∧ mp.truthy = true)) := by
  refine ⟨?_, update_configmaps_spec, ?_⟩
  · intro conf p c nt rest hp hc
    simp [_add_configdata, hp, hc, Val.asStr]
  · intro conf
    exact ⟨rfl, fun h => absurd rfl h⟩

/-- C6, witness: the spec's scenario entry
`{file_path: /etc/app/config.json, file_content: ...}` produces node
`config-json` and mount `subPath: config.json` on a pod container. -/
theorem C6_witness :
    _add_configdata
      [.vmap [("file_path", .vstr "/etc/app/config.json"),
              ("file_content", .vstr "contents")]] [] =
      _add_configdata []
        (setMap [] (sanitizeName (pathName "/etc/app/config.json"))
          (configmapNode (pathName "/etc/app/config.json") (.vstr "contents"))) ∧
    (∃ sm' cm' : List (String × Val),
      _update_configmaps (.vmap [("containers", .vlist [])])
          (.vmap [("image", .vstr "busybox")])
          (some [.vmap [("file_path", .vstr "/etc/app/config.json"),
                        ("file_content", .vstr "contents")]]) =
        .ok (.vmap sm', .vmap cm') ∧
      lookupMap sm' "volumes" =
        some (.vlist ([] ++ ([.vmap [("file_path", .vstr "/etc/app/config.json"),
                              ("file_content", .vstr "contents")]].map
          (fun c => configVolume (confNodeName c))))) ∧
      (∀ k, k ≠ "volumes" →
        lookupMap sm' k = lookupMap [("containers", .vlist [])] k) ∧
      lookupMap cm' "volumeMounts" =
        some (.vlist ([] ++ ([.vmap [("file_path", .vstr "/etc/app/config.json"),
                              ("file_content", .vstr "contents")]].map
          (fun c => configVolumeMount (confNodeName c) (confPath c)
            (osBasename (confPath c)))))) ∧
      (∀ k, k ≠ "volumeMounts" →
        lookupMap cm' k = lookupMap [("image", .vstr "busybox")] k)) := by
  constructor
  · exact C6_configdata.1
      (.vmap [("file_path", .vstr "/etc/app/config.json"),
              ("file_content", .vstr "contents")])
      "/etc/app/config.json" (.vstr "contents") [] [] (by decide) (by decide)
  · exact C6_configdata.2.1 [("containers", .vlist [])] [("image", .vstr "busybox")]
      [.vmap [("file_path", .vstr "/etc/app/config.json"),
              ("file_content", .vstr "contents")]] [] []
      (Or.inr ⟨by decide, rfl⟩) (Or.inr ⟨by decide, rfl⟩)
      (by intro conf hc
          fin_cases hc
          exact ⟨"/etc/app/config.json", .vstr "contents", by decide, by decide⟩)

/-! ### Claim C10 -/

theorem update_propagation_nil (cm : List (String × Val)) (mnts0 : List Val)
    (hm : lookupMap cm "volumeMounts" = some (.vlist mnts0) ∨
          lookupMap cm "volumeMounts" = none) :
    _update_propagation (.vmap cm) [] = .ok (.vmap cm) := by
  rcases hm with hm | hm
  · have hz : zipApply [] mnts0 = .ok mnts0 := by cases mnts0 <;> rfl
    simp [_update_propagation, hm, Val.iterElems, hz, setMap_of_lookup_self _ _ _ hm]
  · simp [_update_propagation, hm]

/-- C10: a located, truthy workload container is mutated even with an
empty configuration sequence (and the empty propagation sequence of the
manifest flow): the owning spec gains a `volumes` key and the container
a `volumeMounts` key — existing lists kept, empty lists created when
absent — while every other key of the spec, the container, and the
document is unchanged, and the document is emitted in this mutated
form. -/
theorem C10_empty_config_mutation (mm sm cm : List (String × Val))
    (md nameV kindV : Val) (name kind : String) (vols0 mnts0 : List Val)
    (hmd : (Val.vmap mm).getItem "metadata" = .ok md)
    (hname : md.getItem "name" = .ok nameV)
    (hlow : nameV.lowerStr = .ok name)
    (hkind : (Val.vmap mm).getItem "kind" = .ok kindV)
    (hklow : kindV.lowerStr = .ok kind)
    (hw : WORKLOADS.contains kind = true)
    (hloc : get_spec_container_from_manifest (.vmap mm) =
      .ok (some (.vmap sm, .vmap cm)))
    (htr : (Val.vmap cm).truthy = true)
    (hv : lookupMap sm "volumes" = some (.vlist vols0) ∨
          (lookupMap sm "volumes" = none ∧ vols0 = []))
    (hmn : lookupMap cm "volumeMounts" = some (.vlist mnts0) ∨
           (lookupMap cm "volumeMounts" = none ∧ mnts0 = [])) :
    ∃ sm' cm' : List (String × Val),
      transformDoc (.vmap mm) [] (some []) =
        .ok (some (name ++ "-" ++ kind,
          _to_node (writeBackManifest (.vmap mm) (.vmap sm') (.vmap cm')))) ∧
      lookupMap sm' "volumes" = some (.vlist vols0) ∧
      (∀ k, k ≠ "volumes" → lookupMap sm' k = lookupMap sm k) ∧
      lookupMap cm' "volumeMounts" = some (.vlist mnts0) ∧
      (∀ k, k ≠ "volumeMounts" → lookupMap cm' k = lookupMap cm k) ∧
      (∀ k, k ≠ "spec" →
        (writeBackManifest (.vmap mm) (.vmap sm') (.vmap cm')).get? k =
          (Val.vmap mm).get? k) := by
  obtain ⟨sm', cm', hcm, h1, h2, h3, h4⟩ :=
    update_configmaps_spec sm cm [] vols0 mnts0 hv hmn (by simp)
  have hup := update_propagation_nil cm mnts0
    (by rcases hmn with h | ⟨h, _⟩
        · exact Or.inl h
        · exact Or.inr h)
  refine ⟨sm', cm', ?_, by simpa using h1, h2, by simpa using h3, h4,
    fun k hk => writeBackManifest_get_ne _ _ _ k hk⟩
  simp [transformDoc, hmd, hname, hlow, hkind, hklow, hw, hloc, htr, hup, hcm]
  intro hk
  exact absurd (List.mem_of_elem_eq_true hw) hk

/-- C10, witness: the test-fixture Pod (no `volumes`, no
`volumeMounts`) gains both keys as empty lists while all other fields
survive unchanged. -/
theorem C10_witness :
    ∃ sm' cm' : List (String × Val),
      transformDoc (.vmap [("kind", .vstr "Pod"),
          ("metadata", .vmap [("name", .vstr "my-pod-name")]),
          ("apiVersion", .vstr "v1"),
          ("spec", .vmap [("containers",
             .vlist [.vmap [("image", .vstr "busybox")]])])]) [] (some []) =
        .ok (some ("my-pod-name" ++ "-" ++ "pod",
          _to_node (writeBackManifest (.vmap [("kind", .vstr "Pod"),
            ("metadata", .vmap [("name", .vstr "my-pod-name")]),
            ("apiVersion", .vstr "v1"),
            ("spec", .vmap [("containers",
               .vlist [.vmap [("image", .vstr "busybox")]])])])
            (.vmap sm') (.vmap cm')))) ∧
      lookupMap sm' "volumes" = some (.vlist []) ∧
      (∀ k, k ≠ "volumes" → lookupMap sm' k =
        lookupMap [("containers", .vlist [.vmap [("image", .vstr "busybox")]])] k) ∧
      lookupMap cm' "volumeMounts" = some (.vlist []) ∧
      (∀ k, k ≠ "volumeMounts" → lookupMap cm' k =
        lookupMap [("image", .vstr "busybox")] k) ∧
      (∀ k, k ≠ "spec" →
        (writeBackManifest (.vmap [("kind", .vstr "Pod"),
            ("metadata", .vmap [("name", .vstr "my-pod-name")]),
            ("apiVersion", .vstr "v1"),
            ("spec", .vmap [("containers",
               .vlist [.vmap [("image", .vstr "busybox")]])])])
          (.vmap sm') (.vmap cm')).get? k =
        (Val.vmap [("kind", .vstr "Pod"),
            ("metadata", .vmap [("name", .vstr "my-pod-name")]),
            ("apiVersion", .vstr "v1"),
            ("spec", .vmap [("containers",
               .vlist [.vmap [("image", .vstr "busybox")]])])]).get? k) :=
  C10_empty_config_mutation
    [("kind", .vstr "Pod"), ("metadata", .vmap [("name", .vstr "my-pod-name")]),
     ("apiVersion", .vstr "v1"),
     ("spec", .vmap [("containers", .vlist [.vmap [("image", .vstr "busybox")]])])]
    [("containers", .vlist [.vmap [("image", .vstr "busybox")]])]
    [("image", .vstr "busybox")]
    (.vmap [("name", .vstr "my-pod-name")]) (.vstr "my-pod-name") (.vstr "Pod")
    "my-pod-name" "pod" [] []
    (by decide) (by decide) (by decide) (by decide) (by decide) (by decide)
    (by decide) (by decide) (Or.inr ⟨by decide, rfl⟩) (Or.inr ⟨by decide, rfl⟩)

/-! ### Claim C2 -/

theorem lookupMap_eq_none_iff (m : List (String × Val)) (k : String) :
    lookupMap m k = none ↔ k ∉ m.map Prod.fst := by
  induction m with
  | nil => simp [lookupMap]
  | cons hd tl ih =>
    obtain ⟨k0, v0⟩ := hd
    by_cases h0 : k0 = k
    · subst h0
      simp [lookupMap]
    · simp [lookupMap, h0, ih, Ne.symm h0]

theorem add_configdata_keys (confs : List Val) (nt : List (String × Val))
    (hwf : ∀ conf ∈ confs, ConfWF conf)
    (hfresh : ∀ conf ∈ confs, lookupMap nt (confNodeName conf) = none)
    (hnodup : (confs.map confNodeName).Nodup) :
    ∃ nt', _add_configdata confs nt = .ok nt' ∧
      nt'.map Prod.fst = nt.map Prod.fst ++ confs.map confNodeName := by
  induction confs generalizing nt with
  | nil => exact ⟨nt, rfl, by simp⟩
  | cons conf rest ih =>
    obtain ⟨p, c, hp, hc⟩ := hwf conf (by simp)
    have hcn : confNodeName conf = sanitizeName (pathName p) := by
      simp [confNodeName, hp]
    have hstep : _add_configdata (conf :: rest) nt =
        _add_configdata rest
          (setMap nt (confNodeName conf) (configmapNode (pathName p) c)) := by
      simp [_add_configdata, hp, hc, Val.asStr, hcn]
    rw [setMap_fresh nt _ _ (hfresh conf (by simp))] at hstep
    have hnodup' : (confNodeName conf :: rest.map confNodeName).Nodup := by
      simpa using hnodup
    have hne := (List.nodup_cons.mp hnodup').1
    have hnodup2 := (List.nodup_cons.mp hnodup').2
    obtain ⟨nt', hrest, hkeys⟩ := ih
      (nt ++ [(confNodeName conf, configmapNode (pathName p) c)])
      (fun x hx => hwf x (by simp [hx]))
      (by intro x hx
          rw [lookupMap_append_single_ne]
          · exact hfresh x (by simp [hx])
          · intro hcontra
            exact hne (hcontra ▸ List.mem_map_of_mem confNodeName hx))
      hnodup2
    refine ⟨nt', hstep ▸ hrest, ?_⟩
    rw [hkeys]
    simp

theorem transform_keys (docs : List Val) (nt : List (String × Val))
    (prop : List (Option String)) (conf : Option (List Val))
    (hemit : ∀ m ∈ docs, ∃ nv, transformDoc m prop conf = .ok (some nv))
    (hfresh : ∀ m ∈ docs, lookupMap nt (nodeNameOf m) = none)
    (hnodup : (docs.map nodeNameOf).Nodup) :
    ∃ nt', _transform docs nt prop conf = .ok nt' ∧
      nt'.map Prod.fst = nt.map Prod.fst ++ docs.map nodeNameOf := by
  induction docs generalizing nt with
  | nil => exact ⟨nt, rfl, by simp⟩
  | cons m rest ih =>
    obtain ⟨⟨nm, node⟩, hstep⟩ := hemit m (by simp)
    have hnm : nm = nodeNameOf m := (transformDoc_ok_some m prop conf nm node hstep).1
    subst hnm
    have hT : _transform (m :: rest) nt prop conf =
        _transform rest (setMap nt (nodeNameOf m) node) prop conf := by
      simp [_transform, hstep]
    rw [setMap_fresh nt _ node (hfresh m (by simp))] at hT
    have hnodup' : (nodeNameOf m :: rest.map nodeNameOf).Nodup := by
      simpa using hnodup
    have hne := (List.nodup_cons.mp hnodup').1
    have hnodup2 := (List.nodup_cons.mp hnodup').2
    obtain ⟨nt', hrest, hkeys⟩ := ih
      (nt ++ [(nodeNameOf m, node)])
      (fun x hx => hemit x (by simp [hx]))
      (by intro x hx
          rw [lookupMap_append_single_ne]
          · exact hfresh x (by simp [hx])
          · intro hcontra
            exact hne (hcontra ▸ List.mem_map_of_mem nodeNameOf hx))
      hnodup2
    refine ⟨nt', hT ▸ hrest, ?_⟩
    rw [hkeys]
    simp

/-- C2, counterexample: a manifest set with exactly one workload
document — a Deployment whose pod template has an empty container list
— does not translate successfully: it raises `TypeError` and produces
no node templates at all. -/
theorem C2_counterexample :
    translate_manifest (.vlist [deplNoContainersDoc]) [] (some []) =
      .error .typeError := by
  decide

/-- C2 (amended): for every manifest set with zero or one workload
document, translation succeeds with exactly one node-template entry per
input document plus one per configuration entry, provided the
configuration entries are well-formed, every document's per-document
transform emits (in particular every workload document yields a truthy,
well-formed container), and the derived node names — config names and
document names together — are pairwise distinct. -/
theorem C2_amended (docs confs : List Val) (prop : List (Option String)) (n : Nat)
    (hcount : count_workloads docs = .ok n) (hn : n ≤ 1)
    (hwf : ∀ conf ∈ confs, ConfWF conf)
    (hemit : ∀ m ∈ docs, ∃ nv, transformDoc m prop (some confs) = .ok (some nv))
    (hnodup : (confs.map confNodeName ++ docs.map nodeNameOf).Nodup) :
    ∃ adt, translate_manifest (.vlist docs) prop (some confs) = .ok adt ∧
      adt.node_templates.length = confs.length + docs.length ∧
      adt.node_templates.map Prod.fst =
        confs.map confNodeName ++ docs.map nodeNameOf := by
  rw [List.nodup_append] at hnodup
  obtain ⟨hnd1, hnd2, hdisj⟩ := hnodup
  obtain ⟨nt1, hadd, hkeys1⟩ :=
    add_configdata_keys confs [] hwf (fun _ _ => rfl) hnd1
  have hfresh2 : ∀ m ∈ docs, lookupMap nt1 (nodeNameOf m) = none := by
    intro m hm
    rw [lookupMap_eq_none_iff, hkeys1]
    simp only [List.map_nil, List.nil_append]
    intro hc
    exact hdisj hc (List.mem_map_of_mem nodeNameOf hm)
  obtain ⟨nt2, htr, hkeys2⟩ :=
    transform_keys docs nt1 prop (some confs) hemit hfresh2 hnd2
  have hng : ¬ (n > 1) := by omega
  refine ⟨⟨nt2⟩, ?_, ?_, ?_⟩
  · simp [translate_manifest, Val.iterElems, hcount, hng, _get_default_adt, hadd, htr]
  · have : nt2.map Prod.fst = confs.map confNodeName ++ docs.map nodeNameOf := by
      rw [hkeys2, hkeys1]
      simp
    have hlen := congrArg List.length this
    simpa using hlen
  · rw [hkeys2, hkeys1]
    simp

/-- C2, witness: one workload Pod, one Service, and one configuration
entry translate to exactly three node templates with the expected
keys. -/
theorem C2_witness :
    ∃ adt, translate_manifest (.vlist [podFullDoc, svcStatusDoc]) []
        (some [.vmap [("file_path", .vstr "/etc/app/config.json"),
                      ("file_content", .vstr "contents")]]) = .ok adt ∧
      adt.node_templates.length =
        ([.vmap [("file_path", .vstr "/etc/app/config.json"),
                 ("file_content", .vstr "contents")]] : List Val).length +
        ([podFullDoc, svcStatusDoc] : List Val).length ∧
      adt.node_templates.map Prod.fst =
        ([.vmap [("file_path", .vstr "/etc/app/config.json"),
                 ("file_content", .vstr "contents")]] : List Val).map confNodeName ++
        ([podFullDoc, svcStatusDoc] : List Val).map nodeNameOf :=
  C2_amended [podFullDoc, svcStatusDoc]
    [.vmap [("file_path", .vstr "/etc/app/config.json"),
            ("file_content", .vstr "contents")]] [] 1
    (by decide) (by decide)
    (by intro conf hc
        fin_cases hc
        exact ⟨"/etc/app/config.json", .vstr "contents", by decide, by decide⟩)
    (by intro m hm
        fin_cases hm <;> exact ⟨_, rfl⟩)
    (by decide)

/-! ### Claim C1 -/

/-- C1, counterexample: a Service document carrying
`metadata.annotations`, `metadata.creationTimestamp` and `status` is
emitted with all three fields still present in the output node
template — nothing is stripped before emission. -/
theorem C1_counterexample :
    translate_manifest (.vlist [svcStatusDoc]) [] (some []) =
      .ok ⟨[("s-service", _to_node svcStatusDoc)]⟩ ∧
    ((inputsOf (_to_node svcStatusDoc)).bind (fun d => d.get? "status") =
      some (.vstr "Running")) ∧
    (((inputsOf (_to_node svcStatusDoc)).bind (fun d => d.get? "metadata")).bind
      (fun md => md.get? "annotations") = some (.vmap [("a", .vstr "b")])) ∧
    (((inputsOf (_to_node svcStatusDoc)).bind (fun d => d.get? "metadata")).bind
      (fun md => md.get? "creationTimestamp") = some (.vstr "2024-01-01")) :=
  ⟨by decide, by decide, by decide, by decide⟩

/-- C1 (amended): the translator performs no stripping.  Every emitted
node template embeds a document whose `status` field and whole
`metadata` mapping (hence `metadata.annotations` and
`metadata.creationTimestamp`) are exactly those of the input document;
only the `spec` subtree can differ (volume/mount injection). -/
theorem C1_amended (m : Val) (prop : List (Option String)) (conf : Option (List Val))
    (nm : String) (node : Val) (h : transformDoc m prop conf = .ok (some (nm, node))) :
    ∃ m', inputsOf node = some m' ∧
      m'.get? "status" = m.get? "status" ∧ m'.get? "metadata" = m.get? "metadata" := by
  obtain ⟨-, m', hnode, hfr⟩ := transformDoc_ok_some m prop conf nm node h
  exact ⟨m', by rw [hnode, inputsOf_to_node],
    hfr "status" (by decide), hfr "metadata" (by decide)⟩

/-- C1, witness: the amended statement applied to the Service document
carrying all three fields. -/
theorem C1_witness :
    ∃ m', inputsOf (_to_node svcStatusDoc) = some m' ∧
      m'.get? "status" = svcStatusDoc.get? "status" ∧
      m'.get? "metadata" = svcStatusDoc.get? "metadata" :=
  C1_amended svcStatusDoc [] (some []) "s-service" (_to_node svcStatusDoc) (by decide)

/-! ### Claim C3 -/

/-- C3, counterexample: a Pod whose `spec.containers` is an empty list
(so neither container path yields a container) makes translation raise
`TypeError` — the bare `None` returned by
`get_spec_container_from_manifest` fails the caller's tuple unpacking —
instead of emitting the document. -/
theorem C3_counterexample :
    translate_manifest (.vlist [podNoContainersDoc]) [] (some []) = .error .typeError := by
  decide

/-- C3 (amended): for every workload document for which the container
locator returns its bare `None` (neither `spec.containers` nor
`spec.template.spec.containers` yields a container), the per-document
transform raises `TypeError` and the document is not emitted; the
volume/propagation injection is skipped only because the call fails. -/
theorem C3_amended (m : Val) (prop : List (Option String)) (conf : Option (List Val))
    (md nameV kindV : Val) (name kind : String)
    (hmd : m.getItem "metadata" = .ok md) (hname : md.getItem "name" = .ok nameV)
    (hlow : nameV.lowerStr = .ok name) (hkind : m.getItem "kind" = .ok kindV)
    (hklow : kindV.lowerStr = .ok kind) (hw : WORKLOADS.contains kind = true)
    (hloc : get_spec_container_from_manifest m = .ok none) :
    transformDoc m prop conf = .error .typeError := by
  simp [transformDoc, hmd, hname, hlow, hkind, hklow, hw, hloc]
  exact List.mem_of_elem_eq_true hw

/-- C3, witness: the amended statement applied to the Pod with an empty
container list. -/
theorem C3_witness : transformDoc podNoContainersDoc [] (some []) = .error .typeError :=
  C3_amended podNoContainersDoc [] (some [])
    (.vmap [("name", .vstr "p")]) (.vstr "p") (.vstr "Pod") "p" "pod"
    (by decide) (by decide) (by decide) (by decide) (by decide) (by decide) (by decide)

/-! ### Claim C8 -/

/-- C8, counterexample: the spec's scenario input, literally
`{kind: Pod, metadata: {name: my-pod-name}}`, does not yield node key
`my-pod-name-pod`: translation raises `TypeError` (workload kind, no
containers, bare `None` unpacking) and produces no output at all. -/
theorem C8_counterexample :
    translate_manifest (.vlist [podBareDoc]) [] (some []) = .error .typeError := by
  decide

/-- C8 (amended): every emitted node key is
`"{metadata.name.lower()}-{kind.lower()}"`, a pure function of
`(metadata.name, kind)` alone (hence stable across runs); the scenario
holds once the Pod also carries a container, as in the repository's own
test fixture. -/
theorem C8_amended :
    (∀ m prop conf nm node, transformDoc m prop conf = .ok (some (nm, node)) →
        nm = nodeNameOf m) ∧
    (∀ m1 m2, rawNameOf m1 = rawNameOf m2 → m1.getItem "kind" = m2.getItem "kind" →
        nodeNameOf m1 = nodeNameOf m2) ∧
    ((translate_manifest (.vlist [podFullDoc]) [] (some [])).map
        (fun adt => adt.node_templates.map Prod.fst) = .ok ["my-pod-name-pod"]) :=
  ⟨fun m prop conf nm node h => (transformDoc_ok_some m prop conf nm node h).1,
   fun m1 m2 h1 h2 => by unfold nodeNameOf; rw [h1, h2],
   by decide⟩

/-- The node template emitted for `podFullDoc` (volumes and mounts
ensured on the embedded document). -/
def podFullEmittedNode : Val :=
  _to_node (.vmap [("kind", .vstr "Pod"),
                   ("metadata", .vmap [("name", .vstr "my-pod-name")]),
                   ("apiVersion", .vstr "v1"),
                   ("spec", .vmap [("containers",
                      .vlist [.vmap [("image", .vstr "busybox"),
                                     ("volumeMounts", .vlist [])]]),
                     ("volumes", .vlist [])])])

/-- C8, witness: the amended statement applied to the test-fixture
Pod. -/
theorem C8_witness : "my-pod-name-pod" = nodeNameOf podFullDoc :=
  C8_amended.1 podFullDoc [] (some []) "my-pod-name-pod" podFullEmittedNode (by decide)

/-! ### Claim C9 -/

/-- C9, counterexample: a document set whose first element is the
string `"hello"` — not a mapping — does not make the classifier fail:
it returns a non-compose verdict via Python substring membership. -/
theorem C9_counterexample : is_compose [.vstr "hello"] = .ok false := by decide

/-- C9 (amended): the classifier returns `compose` for a first document
that is a mapping containing a `services` key and `manifest` otherwise;
it fails with `IndexError` on an empty document set and with
`TypeError` on a null first element, but a string or sequence first
element does not fail — membership semantics give the verdict. -/
theorem C9_amended :
    is_compose [] = .error .indexError ∧
    (∀ m ds, is_compose (.vmap m :: ds) = .ok (lookupMap m "services").isSome) ∧
    (∀ ds, is_compose (.vnull :: ds) = .error .typeError) ∧
    (∀ s ds, is_compose (.vstr s :: ds) = .ok (containsSub s.data "services".data)) ∧
    (∀ xs ds, is_compose (.vlist xs :: ds) = .ok (xs.contains (.vstr "services"))) :=
  ⟨rfl, fun _ _ => rfl, fun _ => rfl, fun _ _ => rfl, fun _ _ => rfl⟩

/-- C9, witness: the amended statement applied at a null first
document. -/
theorem C9_witness : is_compose [.vnull] = .error .typeError :=
  C9_amended.2.2.1 []

end DocKubeADT
